import Mathlib

/-!
Verification of the mouse steering simulation (src/mouse_steering.py).

The program turns mouse scroll events into a quantized steering state
(direction, scroll_count) and drives a duty-cycle key press loop from it.
We embed the state, the scroll transition, the toggle handler, one
iteration of the tapping loop, and the shutdown sequence, and prove the
specified properties about them.

Durations are modelled over the rationals; the Python source computes the
same expressions over floats, but every quantity involved is an exact
small rational, so the rational model is faithful for the sign and
equality facts proved here.
-/

namespace MouseSteering

/-- Steering side; the Python source uses the strings `'left'` / `'right'`,
with `None` for neutral (modelled below as `Option Side`). -/
inductive Side where
  | left
  | right
deriving DecidableEq, Repr

/-- The direction field `current_direction`: `'left'`, `'right'` or `None`. -/
abbrev Direction := Option Side

/-- Constant `MAX_SCROLL_STEPS = 15` (line 14 of the source). -/
def MAX_SCROLL_STEPS : Int := 15

/-- Constant `DUTY_CYCLE_PERIOD = 1.0 / 15.0` (line 13 of the source). -/
def DUTY_CYCLE_PERIOD : ℚ := 1 / 15

/-- Embedding of `calculate_duty_cycle` (lines 25-38):
if `scroll_count <= 0` return `0.0`, else `min(scroll_count / MAX_SCROLL_STEPS, 1.0)`. -/
def calculate_duty_cycle (scroll_count : Int) : ℚ :=
  if scroll_count ≤ 0 then 0
  else min ((scroll_count : ℚ) / (MAX_SCROLL_STEPS : ℚ)) 1

/-- Duty cycle is never negative. -/
lemma duty_nonneg (c : Int) : 0 ≤ calculate_duty_cycle c := by
  unfold calculate_duty_cycle
  split_ifs with h
  · exact le_refl 0
  · push_neg at h
    refine le_min ?_ (by norm_num)
    apply div_nonneg
    · exact_mod_cast le_of_lt h
    · norm_num [MAX_SCROLL_STEPS]

/-- Duty cycle never exceeds one. -/
lemma duty_le_one (c : Int) : calculate_duty_cycle c ≤ 1 := by
  unfold calculate_duty_cycle
  split_ifs with h
  · norm_num
  · exact min_le_right _ _

/-- Duty cycle is monotone in the scroll count. -/
lemma duty_mono {a b : Int} (hab : a ≤ b) :
    calculate_duty_cycle a ≤ calculate_duty_cycle b := by
  unfold calculate_duty_cycle
  split_ifs with ha hb hb
  · exact le_refl 0
  · push_neg at hb
    refine le_min ?_ (by norm_num)
    apply div_nonneg
    · exact_mod_cast le_of_lt hb
    · norm_num [MAX_SCROLL_STEPS]
  · omega
  · refine min_le_min ?_ (le_refl 1)
    have hab' : ((a : ℚ)) ≤ (b : ℚ) := by exact_mod_cast hab
    have h15 : (0 : ℚ) < (MAX_SCROLL_STEPS : ℚ) := by norm_num [MAX_SCROLL_STEPS]
    exact (div_le_div_iff_of_pos_right h15).mpr hab'

/-- Duty cycle at level 1. -/
lemma duty_one : calculate_duty_cycle 1 = 1 / 15 := by
  unfold calculate_duty_cycle
  rw [if_neg (by norm_num)]
  have : ((1 : Int) : ℚ) / ((MAX_SCROLL_STEPS : Int) : ℚ) = 1 / 15 := by
    norm_num [MAX_SCROLL_STEPS]
  rw [this, min_eq_left (by norm_num)]

/-- Duty cycle at level 15. -/
lemma duty_fifteen : calculate_duty_cycle 15 = 1 := by
  unfold calculate_duty_cycle
  rw [if_neg (by norm_num)]
  have : ((15 : Int) : ℚ) / ((MAX_SCROLL_STEPS : Int) : ℚ) = 1 := by
    norm_num [MAX_SCROLL_STEPS]
  rw [this, min_self]

/-- Duty cycle is strictly positive for a positive count. -/
lemma duty_pos {c : Int} (hc : 0 < c) : 0 < calculate_duty_cycle c := by
  unfold calculate_duty_cycle
  rw [if_neg (by omega)]
  refine lt_min ?_ (by norm_num)
  apply div_pos
  · exact_mod_cast hc
  · norm_num [MAX_SCROLL_STEPS]

/-- Embedding of the state update performed inside the lock by `on_scroll`
(lines 106-128): the pure transition on `(current_direction, scroll_count)`
given the scroll delta `dy`.  `dy = 0` falls through both branches and
leaves the state unchanged, exactly as in the source. -/
def scroll_transition (dy : ℚ) (dir : Direction) (cnt : Int) : Direction × Int :=
  if dy > 0 then
    match dir with
    | some .right => (some .right, min (cnt + 1) MAX_SCROLL_STEPS)
    | none => (some .right, min (cnt + 1) MAX_SCROLL_STEPS)
    | some .left =>
        let c := max (cnt - 1) 0
        (if c = 0 then none else some .left, c)
  else if dy < 0 then
    match dir with
    | some .left => (some .left, min (cnt + 1) MAX_SCROLL_STEPS)
    | none => (some .left, min (cnt + 1) MAX_SCROLL_STEPS)
    | some .right =>
        let c := max (cnt - 1) 0
        (if c = 0 then none else some .right, c)
  else (dir, cnt)

/-- The sign of a scroll event, used to index the spec's transition table. -/
inductive ScrollSign where
  | up
  | down
deriving DecidableEq, Repr

/-- Modelled from the spec: the transition table of section 4.4.
Neutral goes to Right(1) on scroll up and Left(1) on scroll down;
Right(n) goes to Right(min(n+1,15)) on scroll up and, on scroll down,
to Right(n-1) if n > 1 and otherwise to Neutral; Left is symmetric. -/
def spec_transition (dir : Direction) (cnt : Int) (sgn : ScrollSign) : Direction × Int :=
  match sgn, dir with
  | .up, none => (some .right, 1)
  | .up, some .right => (some .right, min (cnt + 1) 15)
  | .up, some .left => if 1 < cnt then (some .left, cnt - 1) else (none, 0)
  | .down, none => (some .left, 1)
  | .down, some .left => (some .left, min (cnt + 1) 15)
  | .down, some .right => if 1 < cnt then (some .right, cnt - 1) else (none, 0)

/-- The quantized state invariant: direction is neutral exactly when the
count is zero, and the count stays within 0..15. -/
def StateInv (dir : Direction) (cnt : Int) : Prop :=
  (dir = none ↔ cnt = 0) ∧ 0 ≤ cnt ∧ cnt ≤ 15

instance (dir : Direction) (cnt : Int) : Decidable (StateInv dir cnt) := by
  unfold StateInv; infer_instance

/-- On scroll up the code's transition agrees with the spec table,
assuming the state invariant. -/
lemma scroll_transition_up {dir : Direction} {cnt : Int} (hinv : StateInv dir cnt)
    {dy : ℚ} (hdy : 0 < dy) :
    scroll_transition dy dir cnt = spec_transition dir cnt .up := by
  obtain ⟨hiff, h0, h15⟩ := hinv
  rcases dir with _ | s
  · have hc : cnt = 0 := hiff.mp rfl
    subst hc
    simp [scroll_transition, spec_transition, hdy, MAX_SCROLL_STEPS]
  · cases s
    · have h1 : 1 ≤ cnt := by
        rcases eq_or_ne cnt 0 with h | h
        · exact absurd (hiff.mpr h) (by simp)
        · omega
      have hmax : max (cnt - 1) 0 = cnt - 1 := by omega
      by_cases h2 : cnt = 1
      · subst h2
        simp [scroll_transition, spec_transition, hdy]
      · simp only [scroll_transition, spec_transition, if_pos hdy, hmax]
        rw [if_neg (by omega : ¬ (cnt - 1 = 0)), if_pos (by omega : 1 < cnt)]
    · simp [scroll_transition, spec_transition, hdy, MAX_SCROLL_STEPS]

/-- On scroll down the code's transition agrees with the spec table,
assuming the state invariant. -/
lemma scroll_transition_down {dir : Direction} {cnt : Int} (hinv : StateInv dir cnt)
    {dy : ℚ} (hdy : dy < 0) :
    scroll_transition dy dir cnt = spec_transition dir cnt .down := by
  obtain ⟨hiff, h0, h15⟩ := hinv
  have hnot : ¬ (dy > 0) := not_lt.mpr hdy.le
  rcases dir with _ | s
  · have hc : cnt = 0 := hiff.mp rfl
    subst hc
    simp [scroll_transition, spec_transition, hnot, hdy, MAX_SCROLL_STEPS]
  · cases s
    · simp [scroll_transition, spec_transition, hnot, hdy, MAX_SCROLL_STEPS]
    · have h1 : 1 ≤ cnt := by
        rcases eq_or_ne cnt 0 with h | h
        · exact absurd (hiff.mpr h) (by simp)
        · omega
      have hmax : max (cnt - 1) 0 = cnt - 1 := by omega
      by_cases h2 : cnt = 1
      · subst h2
        simp [scroll_transition, spec_transition, hnot, hdy]
      · simp only [scroll_transition, spec_transition, if_neg hnot, if_pos hdy, hmax]
        rw [if_neg (by omega : ¬ (cnt - 1 = 0)), if_pos (by omega : 1 < cnt)]

/-- The program's global state (lines 17-22): the `enabled` flag, the pair
protected by `lock`, the tapping thread and the stop event.  `alive_threads`
counts the live scheduler thread instances (Python's `tapping_thread is None
or not tapping_thread.is_alive()` holds exactly when the count is 0);
`stop_tapping` is whether the stop event is set. -/
structure SysState where
  enabled : Bool
  current_direction : Direction
  scroll_count : Int
  alive_threads : Nat
  stop_tapping : Bool
deriving DecidableEq, Repr

/-- The initial global state (lines 17-22): disabled, neutral, count 0,
no tapping thread, stop event unset. -/
def initState : SysState :=
  { enabled := false
    current_direction := none
    scroll_count := 0
    alive_threads := 0
    stop_tapping := false }

/-- Embedding of `on_scroll` (lines 79-134) as one atomic step: the early
return when disabled (line 103-104), then, under the lock, the state update
and the check-and-start of the tapping thread (lines 130-134), which clears
the stop event and starts one new thread when none is alive. -/
def on_scroll (dy : ℚ) (s : SysState) : SysState :=
  if s.enabled = false then s
  else
    let dc := scroll_transition dy s.current_direction s.scroll_count
    let s1 : SysState := { s with current_direction := dc.1, scroll_count := dc.2 }
    if s1.alive_threads = 0 then
      { s1 with stop_tapping := false, alive_threads := s1.alive_threads + 1 }
    else s1

/-- Embedding of `on_press` (lines 137-156).  The key argument is the
virtual key code when one is extractable (`hasattr(key, 'vk')`), and `none`
for a key without one; in that case the guard fails and the handler falls
through without touching anything (the `try/except AttributeError` makes
this a normal return either way). -/
def on_press (vk : Option Int) (s : SysState) : SysState :=
  match vk with
  | some code =>
      if code = 96 then
        let s1 : SysState := { s with enabled := !s.enabled }
        if s1.enabled = false then
          { s1 with current_direction := none, scroll_count := 0 }
        else s1
      else s
  | none => s

/-- One observable action of a tapping-loop iteration: the key press and
release calls and the sleeps, in order (durations in seconds, as exact
rationals). -/
inductive KeyEvent where
  | press (k : Char)
  | release (k : Char)
  | sleep (t : ℚ)
deriving DecidableEq, Repr

/-- The key chosen on line 64: `'a' if direction == 'left' else 'd'`. -/
def key_to_press (d : Side) : Char :=
  if d = Side.left then 'a' else 'd'

/-- One iteration of the body of `tap_key_continuously` (lines 50-76),
given the snapshot `(direction, count)` taken under the lock: the list of
press/release/sleep actions the iteration performs. -/
def tap_iteration (direction : Direction) (count : Int) : List KeyEvent :=
  match direction with
  | some d =>
      if count > 0 then
        let duty_cycle := calculate_duty_cycle count
        let press_duration := DUTY_CYCLE_PERIOD * duty_cycle
        let release_duration := DUTY_CYCLE_PERIOD * (1 - duty_cycle)
        let k := key_to_press d
        (if press_duration > 0 then
          [KeyEvent.press k, KeyEvent.sleep press_duration, KeyEvent.release k]
         else []) ++
        (if release_duration > 0 then [KeyEvent.sleep release_duration] else [])
      else [KeyEvent.sleep (1 / 100)]
  | none => [KeyEvent.sleep (1 / 100)]

/-- The loop guard of `tap_key_continuously` (line 50): when the stop event
is set the loop exits at the iteration boundary (`none`); otherwise it runs
one more iteration. -/
def tap_loop_step (stop_flag : Bool) (direction : Direction) (count : Int) :
    Option (List KeyEvent) :=
  if stop_flag then none else some (tap_iteration direction count)

/-- The steps the interrupt handler of `main` can take (lines 187-191),
plus the join of the scheduler thread that the spec postulates. -/
inductive ShutdownAction where
  | setStopSignal
  | joinScheduler
  | stopMouseListener
  | stopKeyboardListener
deriving DecidableEq, Repr

/-- The actual shutdown sequence of `main` on `KeyboardInterrupt`
(lines 187-191): set the stop event, stop the mouse listener, stop the
keyboard listener.  The tapping thread is never joined. -/
def shutdown_sequence : List ShutdownAction :=
  [ShutdownAction.setStopSignal, ShutdownAction.stopMouseListener,
   ShutdownAction.stopKeyboardListener]

/-- A step of the whole system: a scroll callback, a key callback, the exit
of a tapping thread that has observed the stop event, or the interrupt
handler setting the stop event.  Callbacks are atomic because their state
accesses are guarded by the single lock. -/
inductive Step : SysState → SysState → Prop where
  | scroll (dy : ℚ) (s : SysState) : Step s (on_scroll dy s)
  | press (vk : Option Int) (s : SysState) : Step s (on_press vk s)
  | thread_done (s : SysState) (h : s.stop_tapping = true)
      (h2 : 0 < s.alive_threads) :
      Step s { s with alive_threads := s.alive_threads - 1 }
  | interrupt (s : SysState) : Step s { s with stop_tapping := true }

/-- States reachable from the initial state by system steps. -/
inductive Reachable : SysState → Prop where
  | init : Reachable initState
  | step {s t : SysState} : Reachable s → Step s t → Reachable t

/-- The state invariant read off a full system state. -/
def SysInv (s : SysState) : Prop :=
  StateInv s.current_direction s.scroll_count

instance (s : SysState) : Decidable (SysInv s) := by
  unfold SysInv; infer_instance

/-- The spec's transition table preserves the state invariant. -/
lemma spec_transition_inv {dir : Direction} {cnt : Int} (hinv : StateInv dir cnt)
    (sgn : ScrollSign) :
    StateInv (spec_transition dir cnt sgn).1 (spec_transition dir cnt sgn).2 := by
  obtain ⟨hiff, h0, h15⟩ := hinv
  cases sgn <;> rcases dir with _ | s
  · exact ⟨by simp [spec_transition], by norm_num [spec_transition],
      by norm_num [spec_transition]⟩
  · cases s
    · have h1 : 1 ≤ cnt := by
        rcases eq_or_ne cnt 0 with h | h
        · exact absurd (hiff.mpr h) (by simp)
        · omega
      simp only [spec_transition]
      split_ifs with h
      · exact ⟨by simp; omega, by omega, by omega⟩
      · exact ⟨by simp, by norm_num, by norm_num⟩
    · simp only [spec_transition]
      refine ⟨by simp; omega, by omega, by omega⟩
  · exact ⟨by simp [spec_transition], by norm_num [spec_transition],
      by norm_num [spec_transition]⟩
  · cases s
    · simp only [spec_transition]
      refine ⟨by simp; omega, by omega, by omega⟩
    · have h1 : 1 ≤ cnt := by
        rcases eq_or_ne cnt 0 with h | h
        · exact absurd (hiff.mpr h) (by simp)
        · omega
      simp only [spec_transition]
      split_ifs with h
      · exact ⟨by simp; omega, by omega, by omega⟩
      · exact ⟨by simp, by norm_num, by norm_num⟩

/-- The code's scroll transition preserves the state invariant, for every
scroll delta (also `dy = 0`, where nothing changes). -/
lemma scroll_transition_inv {dir : Direction} {cnt : Int} (hinv : StateInv dir cnt)
    (dy : ℚ) :
    StateInv (scroll_transition dy dir cnt).1 (scroll_transition dy dir cnt).2 := by
  rcases lt_trichotomy dy 0 with h | h | h
  · rw [scroll_transition_down hinv h]
    exact spec_transition_inv hinv .down
  · subst h
    simpa [scroll_transition] using hinv
  · rw [scroll_transition_up hinv h]
    exact spec_transition_inv hinv .up

/-- The scroll callback preserves the state invariant. -/
lemma on_scroll_inv (dy : ℚ) (s : SysState) (h : SysInv s) :
    SysInv (on_scroll dy s) := by
  unfold SysInv at *
  simp only [on_scroll]
  split_ifs with h1 h2
  · exact h
  · exact scroll_transition_inv h dy
  · exact scroll_transition_inv h dy

/-- The key callback preserves the state invariant. -/
lemma on_press_inv (vk : Option Int) (s : SysState) (h : SysInv s) :
    SysInv (on_press vk s) := by
  unfold SysInv at *
  match vk with
  | none => exact h
  | some code =>
      simp only [on_press]
      split_ifs with h1 h2
      · exact ⟨by simp, by norm_num, by norm_num⟩
      · exact h
      · exact h

/-- Every system step preserves the state invariant. -/
lemma step_inv {s t : SysState} (hst : Step s t) (h : SysInv s) : SysInv t := by
  cases hst with
  | scroll dy s => exact on_scroll_inv dy s h
  | press vk s => exact on_press_inv vk s h
  | thread_done s h1 h2 => exact h
  | interrupt s => exact h

/-- The state invariant holds in every reachable state. -/
lemma reachable_inv {s : SysState} (h : Reachable s) : SysInv s := by
  induction h with
  | init => exact ⟨by simp [initState], by norm_num [initState], by norm_num [initState]⟩
  | step _ hst ih => exact step_inv hst ih

/-- Every system step keeps the number of live tapping threads at most one. -/
lemma step_alive {s t : SysState} (hst : Step s t)
    (h : s.alive_threads ≤ 1) : t.alive_threads ≤ 1 := by
  cases hst with
  | scroll dy s =>
      simp only [on_scroll]
      split_ifs with h1 h2
      · exact h
      · simpa using by omega
      · simpa using h
  | press vk s =>
      match vk with
      | none => exact h
      | some code =>
          simp only [on_press]
          split_ifs with h1 h2
          · simpa using h
          · simpa using h
          · exact h
  | thread_done s h1 h2 => simpa using by omega
  | interrupt s => simpa using h

/-- At most one tapping thread is alive in every reachable state. -/
lemma reachable_alive {s : SysState} (h : Reachable s) : s.alive_threads ≤ 1 := by
  induction h with
  | init => norm_num [initState]
  | step _ hst ih => exact step_alive hst ih

/-- C1: for every quantized state satisfying the invariant and every scroll
delta with `dy > 0` or `dy < 0`, the code's scroll transition produces
exactly the state given by the spec's transition table; in particular a
step that cancels the opposite direction stops at level 0 / direction
`None` and never starts the new direction in the same event. -/
theorem scroll_transition_matches_spec :
    ∀ (dir : Direction) (cnt : Int), StateInv dir cnt → ∀ dy : ℚ,
      (0 < dy → scroll_transition dy dir cnt = spec_transition dir cnt ScrollSign.up) ∧
      (dy < 0 → scroll_transition dy dir cnt = spec_transition dir cnt ScrollSign.down) :=
  fun _ _ hinv _ =>
    ⟨fun h => scroll_transition_up hinv h, fun h => scroll_transition_down hinv h⟩

/-- Witness for C1 at the cancelling state Left(1) with a scroll up. -/
theorem scroll_transition_matches_spec_witness :
    scroll_transition 1 (some Side.left) 1 =
      spec_transition (some Side.left) 1 ScrollSign.up :=
  (scroll_transition_matches_spec (some Side.left) 1 (by decide) 1).1 (by norm_num)

/-- C2: the invariant `direction == None` iff `level == 0` together with
`0 <= level <= 15` holds initially and is preserved by the scroll callback
(any `dy`) and by the key callback (toggle-on and toggle-off included),
hence it holds in every reachable state. -/
theorem state_invariant_holds :
    SysInv initState ∧
    (∀ (dy : ℚ) (s : SysState), SysInv s → SysInv (on_scroll dy s)) ∧
    (∀ (vk : Option Int) (s : SysState), SysInv s → SysInv (on_press vk s)) ∧
    (∀ s : SysState, Reachable s → SysInv s) :=
  ⟨by decide, on_scroll_inv, on_press_inv, fun _ h => reachable_inv h⟩

/-- Witness for C2 at the initial state, one scroll and one toggle. -/
theorem state_invariant_holds_witness :
    SysInv (on_scroll 1 initState) ∧ SysInv (on_press (some 96) initState) :=
  ⟨state_invariant_holds.2.1 1 initState (by decide),
   state_invariant_holds.2.2.1 (some 96) initState (by decide)⟩

/-- C3: one scheduler iteration on a neutral snapshot is a 10 ms idle sleep
with no key output; on an active snapshot it presses exactly the mapped key
(`'a'` for Left, `'d'` for Right, never both), sleeps for
`pressDuration = P * dutyCycle(level)`, releases it, and then sleeps for
`releaseDuration = P * (1 - dutyCycle(level))` exactly when that is
positive. -/
theorem tap_iteration_matches_spec :
    ∀ (direction : Direction) (count : Int),
      ((direction = none ∨ count ≤ 0) →
        tap_iteration direction count = [KeyEvent.sleep (1 / 100)]) ∧
      (∀ d : Side, direction = some d → 0 < count →
        tap_iteration direction count =
          [KeyEvent.press (key_to_press d),
           KeyEvent.sleep (DUTY_CYCLE_PERIOD * calculate_duty_cycle count),
           KeyEvent.release (key_to_press d)] ++
          (if DUTY_CYCLE_PERIOD * (1 - calculate_duty_cycle count) > 0 then
            [KeyEvent.sleep (DUTY_CYCLE_PERIOD * (1 - calculate_duty_cycle count))]
           else [])) ∧
      key_to_press Side.left = 'a' ∧ key_to_press Side.right = 'd' := by
  intro direction count
  refine ⟨?_, ?_, rfl, rfl⟩
  · rintro (rfl | hc)
    · rfl
    · rcases direction with _ | d
      · rfl
      · simp only [tap_iteration]
        rw [if_neg (by omega)]
  · rintro d rfl hc
    have hpd : DUTY_CYCLE_PERIOD * calculate_duty_cycle count > 0 :=
      mul_pos (by norm_num [DUTY_CYCLE_PERIOD]) (duty_pos hc)
    simp only [tap_iteration]
    rw [if_pos hc, if_pos hpd]

/-- Witness for C3 at the idle snapshot and at Right(15), where the
release phase is empty. -/
theorem tap_iteration_matches_spec_witness :
    tap_iteration none 0 = [KeyEvent.sleep (1 / 100)] ∧
    tap_iteration (some Side.right) 15 =
      [KeyEvent.press (key_to_press Side.right),
       KeyEvent.sleep (DUTY_CYCLE_PERIOD * calculate_duty_cycle 15),
       KeyEvent.release (key_to_press Side.right)] ++
      (if DUTY_CYCLE_PERIOD * (1 - calculate_duty_cycle 15) > 0 then
        [KeyEvent.sleep (DUTY_CYCLE_PERIOD * (1 - calculate_duty_cycle 15))]
       else []) :=
  ⟨(tap_iteration_matches_spec none 0).1 (Or.inl rfl),
   (tap_iteration_matches_spec (some Side.right) 15).2.1 Side.right rfl (by norm_num)⟩

/-- C4: the trigger key (vk 96) flips `enabled`; a toggle-off additionally
resets direction to `None` and the count to 0, while a toggle-on leaves
direction and count untouched. -/
theorem toggle_matches_spec :
    ∀ s : SysState,
      (on_press (some 96) s).enabled = !s.enabled ∧
      (s.enabled = true →
        (on_press (some 96) s).current_direction = none ∧
        (on_press (some 96) s).scroll_count = 0) ∧
      (s.enabled = false →
        (on_press (some 96) s).current_direction = s.current_direction ∧
        (on_press (some 96) s).scroll_count = s.scroll_count) := by
  intro s
  cases hs : s.enabled <;> simp [on_press, hs]

/-- Witness for C4: toggling off from an enabled state at Right(5) resets
to the neutral state. -/
theorem toggle_matches_spec_witness :
    (on_press (some 96)
      { enabled := true, current_direction := some Side.right, scroll_count := 5,
        alive_threads := 1, stop_tapping := false }).current_direction = none ∧
    (on_press (some 96)
      { enabled := true, current_direction := some Side.right, scroll_count := 5,
        alive_threads := 1, stop_tapping := false }).scroll_count = 0 :=
  (toggle_matches_spec
    { enabled := true, current_direction := some Side.right, scroll_count := 5,
      alive_threads := 1, stop_tapping := false }).2.1 rfl

/-- C5: the duty cycle is monotone in the level over all integers, takes
the values 0, 1/15 and 1 at levels 0, 1 and 15, and always lies in
`[0, 1]`. -/
theorem duty_cycle_properties :
    (∀ a b : Int, a ≤ b → calculate_duty_cycle a ≤ calculate_duty_cycle b) ∧
    calculate_duty_cycle 0 = 0 ∧
    calculate_duty_cycle 1 = 1 / 15 ∧
    calculate_duty_cycle 15 = 1 ∧
    (∀ c : Int, 0 ≤ calculate_duty_cycle c ∧ calculate_duty_cycle c ≤ 1) :=
  ⟨fun _ _ h => duty_mono h, by decide, duty_one, duty_fifteen,
   fun c => ⟨duty_nonneg c, duty_le_one c⟩⟩

/-- Witness for C5's monotonicity at levels 3 and 7. -/
theorem duty_cycle_properties_witness :
    calculate_duty_cycle 3 ≤ calculate_duty_cycle 7 :=
  duty_cycle_properties.1 3 7 (by decide)

/-- C6: for every level 0..15 the press and release durations sum exactly
to the period `P = 1/15` s over rational arithmetic, and both are
non-negative. -/
theorem durations_sum_to_period :
    ∀ count : Int, 0 ≤ count → count ≤ 15 →
      DUTY_CYCLE_PERIOD * calculate_duty_cycle count +
        DUTY_CYCLE_PERIOD * (1 - calculate_duty_cycle count) = DUTY_CYCLE_PERIOD ∧
      0 ≤ DUTY_CYCLE_PERIOD * calculate_duty_cycle count ∧
      0 ≤ DUTY_CYCLE_PERIOD * (1 - calculate_duty_cycle count) := by
  intro c h0 h15
  refine ⟨by ring, ?_, ?_⟩
  · exact mul_nonneg (by norm_num [DUTY_CYCLE_PERIOD]) (duty_nonneg c)
  · exact mul_nonneg (by norm_num [DUTY_CYCLE_PERIOD]) (by linarith [duty_le_one c])

/-- Witness for C6 at level 7. -/
theorem durations_sum_to_period_witness :
    DUTY_CYCLE_PERIOD * calculate_duty_cycle 7 +
      DUTY_CYCLE_PERIOD * (1 - calculate_duty_cycle 7) = DUTY_CYCLE_PERIOD ∧
    0 ≤ DUTY_CYCLE_PERIOD * calculate_duty_cycle 7 ∧
    0 ≤ DUTY_CYCLE_PERIOD * (1 - calculate_duty_cycle 7) :=
  durations_sum_to_period 7 (by decide) (by decide)

/-- C7: in every reachable state at most one tapping thread is alive, and a
scroll event arriving while enabled that finds no live thread clears the
stop event and starts exactly one new thread; the check-and-start is
modelled as part of the same atomic step as the state mutation because both
sit inside the same `with lock:` block. -/
theorem single_scheduler_instance :
    (∀ s : SysState, Reachable s → s.alive_threads ≤ 1) ∧
    (∀ (dy : ℚ) (s : SysState), s.enabled = true → s.alive_threads = 0 →
      (on_scroll dy s).alive_threads = 1 ∧ (on_scroll dy s).stop_tapping = false) := by
  constructor
  · exact fun _ h => reachable_alive h
  · intro dy s h1 h2
    simp [on_scroll, h1, h2]

/-- Witness for C7 at the initial state and at a concrete enabled state
with no live thread. -/
theorem single_scheduler_instance_witness :
    initState.alive_threads ≤ 1 ∧
    (on_scroll 1
      { enabled := true, current_direction := none, scroll_count := 0,
        alive_threads := 0, stop_tapping := true }).alive_threads = 1 :=
  ⟨single_scheduler_instance.1 initState Reachable.init,
   (single_scheduler_instance.2 1
     { enabled := true, current_direction := none, scroll_count := 0,
       alive_threads := 0, stop_tapping := true } rfl rfl).1⟩

/-- Counterexample for C8: the interrupt handler of `main` never joins the
tapping thread, so shutdown does not wait for the scheduler instance to
exit before stopping the listeners. -/
theorem shutdown_does_not_join :
    ShutdownAction.joinScheduler ∉ shutdown_sequence := by decide

/-- C8 (amended): on interrupt the program first sets the shared stop
signal and then stops the two listeners, without waiting for the scheduler
thread to exit; the stop signal makes the scheduler's loop exit at the
next iteration boundary, while an unset signal lets it run one more
iteration. -/
theorem shutdown_sequence_behavior :
    shutdown_sequence =
      [ShutdownAction.setStopSignal, ShutdownAction.stopMouseListener,
       ShutdownAction.stopKeyboardListener] ∧
    (∀ (d : Direction) (c : Int), tap_loop_step true d c = none) ∧
    (∀ (d : Direction) (c : Int), tap_loop_step false d c = some (tap_iteration d c)) :=
  ⟨rfl, fun _ _ => rfl, fun _ _ => rfl⟩

/-- C9: a key event without an extractable virtual key code is ignored:
the handler returns normally (the embedding is a total function) and the
whole state is unchanged. -/
theorem malformed_key_ignored : ∀ s : SysState, on_press none s = s :=
  fun _ => rfl

/-- C10: while disabled, a scroll event leaves the entire state unchanged,
in particular it neither changes direction or count nor starts a tapping
thread. -/
theorem disabled_scroll_ignored :
    ∀ (dy : ℚ) (s : SysState), s.enabled = false → on_scroll dy s = s := by
  intro dy s h
  simp [on_scroll, h]

/-- Witness for C10 at the initial (disabled) state. -/
theorem disabled_scroll_ignored_witness : on_scroll 1 initState = initState :=
  disabled_scroll_ignored 1 initState rfl

end MouseSteering
